import Mathlib

/-!
Shallow embedding of the oifits data-reduction module (loadOI, mergeOI,
binOI, _binVec, _filtFlag, _allInOneOI) together with proofs settling the
specification claims about it.  Numeric matrices are embedded as lists of
lists over the exact rationals or the reals; every definition below is
translated from the corresponding source function, and the line numbers in
the doc comments refer to the source file oifits.py.
-/

namespace Oifits

/-! ## Generic helpers shared by several embedded functions -/

/-- Numpy boolean-mask selection `a[w]` (keep the entries whose mask bit is
true; the two lists are traversed in parallel). -/
def maskSel (w : List Bool) (l : List α) : List α :=
  (w.zip l).filterMap (fun p => if p.1 then some p.2 else none)

/-- Numpy `sum(w)` for a boolean mask. -/
def maskCount (w : List Bool) : Nat :=
  w.count true

/-- Python slice assignment `F[-n:] = logical_or(F[-n:], True)` on a list of
flag rows.  For `n = 0` the slice `[-0:]` is the whole list, so every row is
forced to true; otherwise only the last `n` rows are. -/
def setLastTrue (n : Nat) (F : List (List Bool)) : List (List Bool) :=
  if n = 0 then F.map (fun r => r.map (fun _ => true))
  else F.take (F.length - n) ++ (F.drop (F.length - n)).map (fun r => r.map (fun _ => true))

/-- Numpy `1 + 0*A` elementwise on a matrix. -/
def onesLike (m : List (List ℚ)) : List (List ℚ) :=
  m.map (fun r => r.map (fun _ => (1 : ℚ)))

/-- Numpy `logical_or(A, True)` elementwise on a flag matrix. -/
def trueLike (m : List (List Bool)) : List (List Bool) :=
  m.map (fun r => r.map (fun _ => true))

/-- Python dict lookup `d[k]` on an association list (dicts preserve
insertion order, and a key occurs at most once). -/
def lookupF (l : List (String × α)) (k : String) : Option α :=
  (l.find? (fun p => decide (p.1 = k))).map (fun p => p.2)

/-- Python dict assignment `d[k] = v`: overwrite in place when the key
exists, else insert at the end. -/
def updF (l : List (String × α)) (k : String) (v : α) : List (String × α) :=
  if l.any (fun p => decide (p.1 = k)) then l.map (fun p => if p.1 = k then (k, v) else p)
  else l ++ [(k, v)]

theorem lookupF_cons (p : String × α) (l : List (String × α)) (k : String) :
    lookupF (p :: l) k = if p.1 = k then some p.2 else lookupF l k := by
  unfold lookupF
  by_cases hp : p.1 = k
  · rw [List.find?_cons_of_pos _ (by simp [hp]), if_pos hp]
    rfl
  · rw [List.find?_cons_of_neg _ (by simp [hp]), if_neg hp]

theorem lookupF_map_upd_self (l : List (String × α)) (k : String) (v : α)
    (h : l.any (fun p => decide (p.1 = k)) = true) :
    lookupF (l.map (fun p => if p.1 = k then (k, v) else p)) k = some v := by
  induction l with
  | nil => simp at h
  | cons p l ih =>
    simp only [List.map_cons, lookupF_cons]
    by_cases hp : p.1 = k
    · simp [hp]
    · rw [if_neg hp, if_neg hp]
      apply ih
      simp only [List.any_cons, Bool.or_eq_true, decide_eq_true_eq] at h
      rcases h with h | h
      · exact absurd h hp
      · exact h

theorem lookupF_append_self (l : List (String × α)) (k : String) (v : α)
    (h : ¬ l.any (fun p => decide (p.1 = k)) = true) :
    lookupF (l ++ [(k, v)]) k = some v := by
  induction l with
  | nil => simp [lookupF_cons, lookupF]
  | cons p l ih =>
    simp only [List.any_cons, Bool.or_eq_true, decide_eq_true_eq, not_or] at h
    rw [List.cons_append, lookupF_cons, if_neg h.1]
    exact ih (by simpa using h.2)

theorem lookupF_updF_self (l : List (String × α)) (k : String) (v : α) :
    lookupF (updF l k v) k = some v := by
  unfold updF
  by_cases h : l.any (fun p => decide (p.1 = k)) = true
  · simp only [h, if_true]
    exact lookupF_map_upd_self l k v h
  · simp only [h, if_false]
    exact lookupF_append_self l k v h

theorem lookupF_map_upd_ne (l : List (String × α)) (k k2 : String) (v : α) (hk : k2 ≠ k) :
    lookupF (l.map (fun p => if p.1 = k then (k, v) else p)) k2 = lookupF l k2 := by
  induction l with
  | nil => rfl
  | cons p l ih =>
    simp only [List.map_cons, lookupF_cons]
    by_cases hp : p.1 = k
    · have hkk : ¬ (k = k2) := fun h => hk h.symm
      have hp2 : ¬ (p.1 = k2) := hp ▸ hkk
      rw [if_pos hp]
      rw [if_neg hkk, if_neg hp2]
      exact ih
    · rw [if_neg hp]
      by_cases hp2 : p.1 = k2
      · rw [if_pos hp2, if_pos hp2]
      · rw [if_neg hp2, if_neg hp2]
        exact ih

theorem lookupF_append_ne (l : List (String × α)) (k k2 : String) (v : α) (hk : k2 ≠ k) :
    lookupF (l ++ [(k, v)]) k2 = lookupF l k2 := by
  induction l with
  | nil =>
    have hkk : ¬ (k = k2) := fun h => hk h.symm
    simp [lookupF_cons, hkk, lookupF]
  | cons p l ih =>
    rw [List.cons_append, lookupF_cons, lookupF_cons]
    by_cases hp2 : p.1 = k2
    · rw [if_pos hp2, if_pos hp2]
    · rw [if_neg hp2, if_neg hp2]
      exact ih

theorem lookupF_updF_ne (l : List (String × α)) (k k2 : String) (v : α) (hk : k2 ≠ k) :
    lookupF (updF l k v) k2 = lookupF l k2 := by
  unfold updF
  by_cases h : l.any (fun p => decide (p.1 = k)) = true
  · simp only [h, if_true]
    exact lookupF_map_upd_ne l k k2 v hk
  · simp only [h, if_false]
    exact lookupF_append_ne l k k2 v hk

/-- Every entry of a rational matrix equals 1. -/
def allOnesM (m : List (List ℚ)) : Prop :=
  ∀ r ∈ m, ∀ q ∈ r, q = 1

/-- Every entry of a flag matrix is true. -/
def allTrueM (m : List (List Bool)) : Prop :=
  ∀ r ∈ m, ∀ b ∈ r, b = true

/-! ## Batch loading (loadOI called on a list of filenames, lines 37-47)

Only the control flow relevant to claim C2 is embedded: the per-file fatal
checks of loadOI (unresolvable target, unresolvable instrument) and the
batch loop, which calls loadOI on every file with no exception handling, so
an assertion failure inside any single load propagates to the caller. -/

/-- The per-file inputs that the fatal checks of loadOI look at: the target
names of the OI_TARGET extension and the instrument names of the
OI_WAVELENGTH extensions. -/
structure OIFile where
  fname : String
  targets : List String
  instruments : List String

/-- The identifying fields of one loaded dataset. -/
structure DataSet where
  fname : String
  insname : String
  targname : String

/-- Single-file loadOI, fatal checks only (lines 71-87): resolve the target
(default to the unique one, assert membership), then resolve the instrument
(given name must be known; with no name given, a unique instrument is used
and several instruments produce one dataset each). -/
def loadOne (f : OIFile) (insname targname : Option String) : Except String (List DataSet) :=
  let targ : Option String :=
    match targname with
    | some t => some t
    | none => if f.targets.length = 1 then f.targets.head? else none
  match targ with
  | none => .error ("unknown target in " ++ f.fname)
  | some t =>
    if t ∈ f.targets then
      match insname with
      | some ins =>
        if ins ∈ f.instruments then .ok [⟨f.fname, ins, t⟩]
        else .error ("unknown instrument in " ++ f.fname)
      | none =>
        if f.instruments.length = 1 then
          match f.instruments.head? with
          | some ins => .ok [⟨f.fname, ins, t⟩]
          | none => .error ("no instrument in " ++ f.fname)
        else .ok (f.instruments.map (fun ins => ⟨f.fname, ins, t⟩))
    else .error ("unknown target in " ++ f.fname)

/-- loadOI on a list of filenames (lines 37-47): the loop body has no
exception handling, so the first per-file fatal error aborts the whole
batch; otherwise the per-file results are concatenated. -/
def loadMany (fs : List OIFile) (insname targname : Option String) : Except String (List DataSet) :=
  match fs with
  | [] => .ok []
  | f :: rest =>
    match loadOne f insname targname with
    | .error e => .error e
    | .ok ds =>
      match loadMany rest insname targname with
      | .error e => .error e
      | .ok more => .ok (ds ++ more)

/-- A file that loads fine on its own. -/
def fileGood : OIFile :=
  ⟨"a.fits", ["HD1"], ["GRAVITY"]⟩

/-- A file whose target cannot be resolved (two targets, none selected):
the `assert targname in targets` of line 73 fails. -/
def fileBad : OIFile :=
  ⟨"b.fits", ["HD1", "HD2"], ["GRAVITY"]⟩

/-- Claim C2, counterexample: loading the batch [fileGood, fileBad] does not
return the one loadable dataset together with one reported failure; the
whole call aborts with the failure of the second file, although the first
file alone loads successfully. -/
theorem C2_batch_abort_cex :
    loadOne fileGood none none = .ok [⟨"a.fits", "GRAVITY", "HD1"⟩] ∧
    loadMany [fileGood, fileBad] none none = .error ("unknown target in b.fits") := by
  constructor <;> rfl

/-- Claim C2 amended: a per-file fatal error does abort the whole batch: if
some file of the list fails, the batch call returns that failure and no
datasets, no matter how many files before it loaded successfully. -/
theorem C2_batch_aborts (pre rest : List OIFile) (f : OIFile) (insname targname : Option String)
    (ds : List DataSet) (e : String)
    (hpre : loadMany pre insname targname = .ok ds)
    (hf : loadOne f insname targname = .error e) :
    loadMany (pre ++ f :: rest) insname targname = .error e := by
  induction pre generalizing ds with
  | nil =>
    simp only [List.nil_append, loadMany, hf]
  | cons g pre ih =>
    simp only [loadMany] at hpre ⊢
    cases hg : loadOne g insname targname with
    | error e2 => simp [hg] at hpre
    | ok ds2 =>
      simp only [hg] at hpre ⊢
      cases hrest : loadMany pre insname targname with
      | error e2 => simp [hrest] at hpre
      | ok more =>
        have h2 := ih more hrest
        simp only [List.append_eq, h2]

/-- Witness for `C2_batch_aborts` at a concrete batch. -/
theorem C2_batch_aborts_witness :
    loadMany [fileGood] none none = .ok [⟨"a.fits", "GRAVITY", "HD1"⟩] ∧
    loadOne fileBad none none = .error ("unknown target in b.fits") ∧
    loadMany [fileGood, fileBad] none none = .error ("unknown target in b.fits") :=
  ⟨rfl, rfl, C2_batch_aborts [fileGood] [] fileBad none none
    [⟨"a.fits", "GRAVITY", "HD1"⟩] ("unknown target in b.fits") rfl rfl⟩

/-! ## Triangle leg resolution (OI_T3 formula setup, loadOI lines 420-458)

Each triangle name is the concatenation of three station names of equal
width; its three legs are resolved against the known baselines `sta2` and
the running missing-baseline ledger `M`.  The triangle with stations
(a, b, c) is handled here through the three station names directly, which
matches the fixed-width string slicing of the source. -/

/-- First leg, source lines 425-434.  Note that the reverse branch of the
source tests the forward name `k[:2*n]` against the ledger `M`, not the
reverse name. -/
def pickLeg1 (sta2 M : List String) (a b : String) : String × Int × List String :=
  if (a ++ b) ∈ sta2 ∨ (a ++ b) ∈ M then (a ++ b, 1, M)
  else if (b ++ a) ∈ sta2 ∨ (a ++ b) ∈ M then (b ++ a, -1, M)
  else (a ++ b, 1, M ++ [a ++ b])

/-- Second leg, source lines 437-446: here the reverse branch tests the
reverse name against both the known baselines and the ledger. -/
def pickLeg2 (sta2 M : List String) (b c : String) : String × Int × List String :=
  if (b ++ c) ∈ sta2 ∨ (b ++ c) ∈ M then (b ++ c, 1, M)
  else if (c ++ b) ∈ sta2 ∨ (c ++ b) ∈ M then (c ++ b, -1, M)
  else (b ++ c, 1, M ++ [b ++ c])

/-- Third leg, source lines 449-458; like the second leg, the reverse branch
tests the reverse name against both the known baselines and the ledger. -/
def pickLeg3 (sta2 M : List String) (c a : String) : String × Int × List String :=
  if (c ++ a) ∈ sta2 ∨ (c ++ a) ∈ M then (c ++ a, 1, M)
  else if (a ++ c) ∈ sta2 ∨ (a ++ c) ∈ M then (a ++ c, -1, M)
  else (c ++ a, 1, M ++ [c ++ a])

/-- Formula setup for one triangle (names, signs, updated ledger). -/
def setupTriangle (sta2 M : List String) (a b c : String) :
    List String × List Int × List String :=
  let p1 := pickLeg1 sta2 M a b
  let p2 := pickLeg2 sta2 p1.2.2 b c
  let p3 := pickLeg3 sta2 p2.2.2 c a
  ([p1.1, p2.1, p3.1], [p1.2.1, p2.2.1, p3.2.1], p3.2.2)

/-- The leg-1 rule as claim C5 states it: the reverse-oriented name is
accepted, with sign -1, when it is a known baseline or is already in the
ledger.  This definition follows the claim and is compared against
`pickLeg1`, which follows the source. -/
def pickLeg1Claim (sta2 M : List String) (a b : String) : String × Int × List String :=
  if (a ++ b) ∈ sta2 ∨ (a ++ b) ∈ M then (a ++ b, 1, M)
  else if (b ++ a) ∈ sta2 ∨ (b ++ a) ∈ M then (b ++ a, -1, M)
  else (a ++ b, 1, M ++ [a ++ b])

/-- Claim C5: with no known baselines, processing triangle "ABC" puts the
forward names "AB", "BC", "CA" in the ledger; the next triangle "BAD" has
leg-1 forward name "BA" and reverse name "AB", and "AB" is in the ledger, so
by the claim the leg should resolve to ("AB", -1) with no new fabrication.
The source instead tests the forward name against the ledger in the reverse
branch, fabricates "BA" afresh with sign +1, and ends with both "AB" and
"BA" in the ledger: the absent baseline is fabricated twice. -/
theorem C5_leg_orientation_bug :
    (setupTriangle [] [] "A" "B" "C").2.2 = ["AB", "BC", "CA"] ∧
    (setupTriangle [] ["AB", "BC", "CA"] "B" "A" "D").1 = ["BA", "AD", "DB"] ∧
    (setupTriangle [] ["AB", "BC", "CA"] "B" "A" "D").2.1 = [1, 1, 1] ∧
    "AB" ∈ (setupTriangle [] ["AB", "BC", "CA"] "B" "A" "D").2.2 ∧
    "BA" ∈ (setupTriangle [] ["AB", "BC", "CA"] "B" "A" "D").2.2 ∧
    pickLeg1Claim [] ["AB", "BC", "CA"] "B" "A" = ("AB", -1, ["AB", "BC", "CA"]) := by
  refine ⟨?_, ?_, ?_, ?_, ?_, ?_⟩ <;> decide

/-! ## Error-based flagging (_filtFlag, lines 1186-1212)

The in-place mutation of the caller's `fit` dict (lines 1194-1196) is
modelled by returning the updated configuration next to the recomputed
flag matrix. -/

/-- One observable table as _filtFlag sees it: the value and error matrices
keyed by their dict names, and the flag matrix. -/
structure OIExt where
  fields : List (String × List (List ℚ))
  FLAG : List (List Bool)

/-- The error-filter configuration keys read by _filtFlag. -/
structure FitFilt where
  maxError : Option (List (String × ℚ))
  maxRelError : Option (List (String × ℚ))

/-- Numpy `.mean()` of a 2D array: total sum over total element count. -/
def matMean (m : List (List ℚ)) : ℚ :=
  (m.map (fun r => r.sum)).sum / (m.map (fun r => (r.length : ℚ))).sum

/-- `flag += err >= c` elementwise. -/
def orGeFlag (fl : List (List Bool)) (e : List (List ℚ)) (c : ℚ) : List (List Bool) :=
  List.zipWith (fun frow erow => List.zipWith (fun b x => b || decide (c ≤ x)) frow erow) fl e

/-- `flag += err >= c*|val|` elementwise. -/
def orGeRelFlag (fl : List (List Bool)) (e v : List (List ℚ)) (c : ℚ) : List (List Bool) :=
  List.zipWith (fun frow p => List.zipWith (fun b q => b || decide (c * |q.2| ≤ q.1)) frow (p.1.zip p.2))
    fl (e.zip v)

/-- _filtFlag (lines 1186-1212): if no max-error rule is configured return
the flags unchanged; otherwise first write the NFLUX-derived absolute FLUX
ceiling into the caller's configuration (`filt['max error']['FLUX'] =
filt['max error']['NFLUX']*ext['FLUX'].mean()`, lines 1194-1196), then OR
into the flag mask every configured absolute threshold (with the DPHI key
aliased to PHI, threshold looked up under the aliased key) and every
configured relative threshold. -/
def filtFlag (ext : OIExt) (filt : FitFilt) : List (List Bool) × FitFilt :=
  if filt.maxError = none ∧ filt.maxRelError = none then (ext.FLAG, filt)
  else
    let filt2 : FitFilt :=
      match lookupF ext.fields "FLUX", filt.maxError with
      | some flux, some me =>
        match lookupF me "NFLUX" with
        | some c => { filt with maxError := some (updF me "FLUX" (c * matMean flux)) }
        | none => filt
      | _, _ => filt
    let flag1 :=
      match filt2.maxError with
      | none => ext.FLAG
      | some me =>
        me.foldl (fun fl p =>
          let k := if p.1 = "DPHI" then "PHI" else p.1
          match lookupF me k, lookupF ext.fields ("E" ++ k) with
          | some c, some e => orGeFlag fl e c
          | _, _ => fl) ext.FLAG
    let flag2 :=
      match filt2.maxRelError with
      | none => flag1
      | some mre =>
        mre.foldl (fun fl p =>
          match lookupF ext.fields ("E" ++ p.1), lookupF ext.fields p.1 with
          | some e, some v => orGeRelFlag fl e v p.2
          | _, _ => fl) flag1
    (flag2, filt2)

/-- Claim C10: when the table has a FLUX column and the max-error rules hold
an NFLUX key, _filtFlag writes the derived absolute FLUX ceiling (NFLUX
ceiling times the table's mean flux) into the configuration itself, and
after processing a second table the configuration retains the value derived
from the last table processed. -/
theorem C10_filtFlag_mutates (ext1 ext2 : OIExt) (filt : FitFilt)
    (me : List (String × ℚ)) (c : ℚ) (flux1 flux2 : List (List ℚ))
    (hme : filt.maxError = some me) (hn : lookupF me "NFLUX" = some c)
    (hf1 : lookupF ext1.fields "FLUX" = some flux1)
    (hf2 : lookupF ext2.fields "FLUX" = some flux2) :
    lookupF ((filtFlag ext1 filt).2.maxError.getD []) "FLUX" = some (c * matMean flux1) ∧
    lookupF ((filtFlag ext2 (filtFlag ext1 filt).2).2.maxError.getD []) "FLUX"
      = some (c * matMean flux2) := by
  have hguard : ¬ (filt.maxError = none ∧ filt.maxRelError = none) := by
    rw [hme]; rintro ⟨h, -⟩; exact Option.some_ne_none me h
  have h1 : (filtFlag ext1 filt).2.maxError
      = some (updF me "FLUX" (c * matMean flux1)) := by
    unfold filtFlag
    rw [if_neg hguard]
    simp only [hme, hf1, hn]
  constructor
  · rw [h1, Option.getD_some]
    exact lookupF_updF_self me "FLUX" (c * matMean flux1)
  · have hn2 : lookupF (updF me "FLUX" (c * matMean flux1)) "NFLUX" = some c := by
      rw [lookupF_updF_ne me "FLUX" "NFLUX" _ (by decide)]
      exact hn
    have hguard2 : ¬ ((filtFlag ext1 filt).2.maxError = none ∧
        (filtFlag ext1 filt).2.maxRelError = none) := by
      rw [h1]; rintro ⟨h, -⟩; exact Option.some_ne_none _ h
    have h2 : (filtFlag ext2 (filtFlag ext1 filt).2).2.maxError
        = some (updF (updF me "FLUX" (c * matMean flux1)) "FLUX" (c * matMean flux2)) := by
      conv_lhs => rw [filtFlag]
      rw [if_neg hguard2]
      simp only [h1, hf2, hn2]
    rw [h2, Option.getD_some]
    exact lookupF_updF_self _ "FLUX" (c * matMean flux2)

/-- Concrete table with a FLUX column. -/
def extA : OIExt :=
  ⟨[("FLUX", [[2, 4]]), ("EFLUX", [[1, 1]])], [[false, false]]⟩

/-- A second concrete table with a different mean flux. -/
def extB : OIExt :=
  ⟨[("FLUX", [[10, 20]]), ("EFLUX", [[1, 1]])], [[false, false]]⟩

/-- A configuration whose max-error rules hold the NFLUX key. -/
def filtA : FitFilt :=
  ⟨some [("NFLUX", 3)], none⟩

/-- Witness for `C10_filtFlag_mutates` at concrete tables: the written FLUX
ceiling is 3*3 = 9 after the first table and 3*15 = 45 after the second. -/
theorem C10_filtFlag_mutates_witness :
    lookupF ((filtFlag extA filtA).2.maxError.getD []) "FLUX" = some 9 ∧
    lookupF ((filtFlag extB (filtFlag extA filtA).2).2.maxError.getD []) "FLUX" = some 45 := by
  have h := C10_filtFlag_mutates extA extB filtA [("NFLUX", 3)] 3 [[2, 4]] [[10, 20]]
    rfl rfl rfl rfl
  have hm1 : (3 : ℚ) * matMean [[2, 4]] = 9 := by
    norm_num [matMean]
  have hm2 : (3 : ℚ) * matMean [[10, 20]] = 45 := by
    norm_num [matMean]
  rw [hm1, hm2] at h
  exact h

/-! ## OI_VIS / OI_VIS2 reconciliation at merge time (mergeOI lines 1001-1078)

For every baseline name present in either category, the missing side is
fabricated wholesale from the other (unit values, forced-true flags), and
afterwards epochs present in one table but not the other are appended as
unit-valued forced-true rows. -/

/-- One OI_VIS baseline table (dict keys MJD, u, v, u/wl, v/wl, B/wl, PA,
the amplitude/phase matrices and their errors, FLAG). -/
structure VisTab where
  MJD : List ℚ
  u : List ℚ
  v : List ℚ
  uwl : List (List ℚ)
  vwl : List (List ℚ)
  Bwl : List (List ℚ)
  PA : List (List ℚ)
  vamp : List (List ℚ)
  evamp : List (List ℚ)
  PHI : List (List ℚ)
  EPHI : List (List ℚ)
  FLAG : List (List Bool)

/-- One OI_VIS2 baseline table. -/
structure Vis2Tab where
  MJD : List ℚ
  u : List ℚ
  v : List ℚ
  uwl : List (List ℚ)
  vwl : List (List ℚ)
  Bwl : List (List ℚ)
  PA : List (List ℚ)
  V2 : List (List ℚ)
  EV2 : List (List ℚ)
  FLAG : List (List Bool)

/-- Lines 1006-1017: a name missing from OI_VIS is fabricated from its
OI_VIS2 table: coordinate fields copied, `FLAG = logical_or(FLAG, True)`,
and all four value/error matrices set to `1 + 0*V2`. -/
def visFromVis2 (t : Vis2Tab) : VisTab :=
  ⟨t.MJD, t.u, t.v, t.uwl, t.vwl, t.Bwl, t.PA,
   onesLike t.V2, onesLike t.V2, onesLike t.V2, onesLike t.V2, trueLike t.FLAG⟩

/-- Lines 1018-1029: a name missing from OI_VIS2 is fabricated from its
OI_VIS table with `V2 = EV2 = 1 + 0*|V|` and forced-true flags. -/
def vis2FromVis (t : VisTab) : Vis2Tab :=
  ⟨t.MJD, t.u, t.v, t.uwl, t.vwl, t.Bwl, t.PA,
   onesLike t.vamp, onesLike t.vamp, trueLike t.FLAG⟩

/-- The membership mask `[x not in selfMJD for x in otherMJD]`. -/
def missW (otherMJD selfMJD : List ℚ) : List Bool :=
  otherMJD.map (fun x => decide (x ∉ selfMJD))

/-- Lines 1030-1049: epochs of the OI_VIS2 table missing from the OI_VIS
table are appended to OI_VIS, with unit value/error matrices and flags
forced true on the appended block (`FLAG[-sum(w):] |= True`). -/
def syncVis (v : VisTab) (v2 : Vis2Tab) (mjdU : List ℚ) : VisTab :=
  if v.MJD.length < mjdU.length then
    { MJD := v.MJD ++ maskSel (missW v2.MJD v.MJD) v2.MJD
      u := v.u ++ maskSel (missW v2.MJD v.MJD) v2.u
      v := v.v ++ maskSel (missW v2.MJD v.MJD) v2.v
      uwl := v.uwl ++ maskSel (missW v2.MJD v.MJD) v2.uwl
      vwl := v.vwl ++ maskSel (missW v2.MJD v.MJD) v2.vwl
      Bwl := v.Bwl ++ maskSel (missW v2.MJD v.MJD) v2.Bwl
      PA := v.PA ++ maskSel (missW v2.MJD v.MJD) v2.PA
      vamp := v.vamp ++ onesLike (maskSel (missW v2.MJD v.MJD) v2.V2)
      evamp := v.evamp ++ onesLike (maskSel (missW v2.MJD v.MJD) v2.V2)
      PHI := v.PHI ++ onesLike (maskSel (missW v2.MJD v.MJD) v2.V2)
      EPHI := v.EPHI ++ onesLike (maskSel (missW v2.MJD v.MJD) v2.V2)
      FLAG := setLastTrue (maskCount (missW v2.MJD v.MJD))
        (v.FLAG ++ maskSel (missW v2.MJD v.MJD) v2.FLAG) }
  else v

/-- Lines 1059-1078: the mirror step for OI_VIS2, run against the already
updated OI_VIS table; the branch condition compares with `!=`. -/
def syncVis2 (vp : VisTab) (v2 : Vis2Tab) (mjdU : List ℚ) : Vis2Tab :=
  if v2.MJD.length ≠ mjdU.length then
    { MJD := v2.MJD ++ maskSel (missW vp.MJD v2.MJD) vp.MJD
      u := v2.u ++ maskSel (missW vp.MJD v2.MJD) vp.u
      v := v2.v ++ maskSel (missW vp.MJD v2.MJD) vp.v
      uwl := v2.uwl ++ maskSel (missW vp.MJD v2.MJD) vp.uwl
      vwl := v2.vwl ++ maskSel (missW vp.MJD v2.MJD) vp.vwl
      Bwl := v2.Bwl ++ maskSel (missW vp.MJD v2.MJD) vp.Bwl
      PA := v2.PA ++ maskSel (missW vp.MJD v2.MJD) vp.PA
      V2 := v2.V2 ++ onesLike (maskSel (missW vp.MJD v2.MJD) vp.vamp)
      EV2 := v2.EV2 ++ onesLike (maskSel (missW vp.MJD v2.MJD) vp.vamp)
      FLAG := setLastTrue (maskCount (missW vp.MJD v2.MJD))
        (v2.FLAG ++ maskSel (missW vp.MJD v2.MJD) vp.FLAG) }
  else v2

/-- Lines 1030-1078 for one name: the union epoch list (python
`list(set(...))`) drives both append steps. -/
def syncEpochs (v : VisTab) (v2 : Vis2Tab) : VisTab × Vis2Tab :=
  let mjdU := (v.MJD ++ v2.MJD).dedup
  (syncVis v v2 mjdU, syncVis2 (syncVis v v2 mjdU) v2 mjdU)

/-- Lines 1001-1078 for one baseline name present in at least one of the
two categories: fabricate the missing side, then reconcile epochs. -/
def reconcilePair (ov : Option VisTab) (ov2 : Option Vis2Tab) : Option (VisTab × Vis2Tab) :=
  match ov, ov2 with
  | none, none => none
  | some v, some v2 => some (syncEpochs v v2)
  | none, some v2 => some (syncEpochs (visFromVis2 v2) v2)
  | some v, none => some (syncEpochs v (vis2FromVis v))

theorem maskSel_cons (b : Bool) (w : List Bool) (a : α) (l : List α) :
    maskSel (b :: w) (a :: l) = if b then a :: maskSel w l else maskSel w l := by
  cases b <;> simp [maskSel]

theorem maskSel_length (w : List Bool) (l : List α) (h : w.length = l.length) :
    (maskSel w l).length = maskCount w := by
  induction w generalizing l with
  | nil => simp [maskSel, maskCount]
  | cons b w ih =>
    cases l with
    | nil => simp at h
    | cons a l =>
      rw [maskSel_cons]
      have h2 : w.length = l.length := by simpa using h
      cases b
      · simpa [maskCount, List.count_cons] using ih l h2
      · simpa [maskCount, List.count_cons] using ih l h2

theorem allOnesM_onesLike (m : List (List ℚ)) : allOnesM (onesLike m) := by
  intro r hr q hq
  rw [onesLike] at hr
  obtain ⟨r0, -, rfl⟩ := List.mem_map.mp hr
  obtain ⟨q0, -, rfl⟩ := List.mem_map.mp hq
  rfl

theorem allTrueM_mapTrue (m : List (List Bool)) :
    allTrueM (m.map (fun r => r.map (fun _ => true))) := by
  intro r hr b hb
  obtain ⟨r0, -, rfl⟩ := List.mem_map.mp hr
  obtain ⟨b0, -, rfl⟩ := List.mem_map.mp hb
  rfl

theorem allTrueM_trueLike (m : List (List Bool)) : allTrueM (trueLike m) :=
  allTrueM_mapTrue m

theorem allOnesM_append {a b : List (List ℚ)} (ha : allOnesM a) (hb : allOnesM b) :
    allOnesM (a ++ b) := by
  intro r hr
  rcases List.mem_append.mp hr with h | h
  · exact ha r h
  · exact hb r h

theorem allTrueM_append {a b : List (List Bool)} (ha : allTrueM a) (hb : allTrueM b) :
    allTrueM (a ++ b) := by
  intro r hr
  rcases List.mem_append.mp hr with h | h
  · exact ha r h
  · exact hb r h

theorem allOnesM_drop {a : List (List ℚ)} (ha : allOnesM a) (n : Nat) :
    allOnesM (a.drop n) := by
  intro r hr
  exact ha r (List.mem_of_mem_drop hr)

theorem allTrueM_drop {a : List (List Bool)} (ha : allTrueM a) (n : Nat) :
    allTrueM (a.drop n) := by
  intro r hr
  exact ha r (List.mem_of_mem_drop hr)

theorem setLastTrue_length (n : Nat) (F : List (List Bool)) :
    (setLastTrue n F).length = F.length := by
  unfold setLastTrue
  split
  · simp
  · simp only [List.length_append, List.length_take, List.length_map, List.length_drop]
    omega

theorem setLastTrue_append (A B : List (List Bool)) (hB : B.length ≠ 0) :
    setLastTrue B.length (A ++ B) = A ++ B.map (fun r => r.map (fun _ => true)) := by
  unfold setLastTrue
  rw [if_neg hB]
  have hlen : (A ++ B).length - B.length = A.length := by
    simp [List.length_append]
  rw [hlen, List.take_left, List.drop_left]

theorem setLastTrue_append_allTrue (A B : List (List Bool)) (hA : allTrueM A) :
    allTrueM (setLastTrue B.length (A ++ B)) := by
  by_cases hB : B.length = 0
  · rw [List.length_eq_zero] at hB
    subst hB
    unfold setLastTrue
    simp only [List.length_nil, if_pos rfl]
    exact allTrueM_mapTrue _
  · rw [setLastTrue_append A B hB]
    exact allTrueM_append hA (allTrueM_mapTrue B)

theorem setLastTrue_append_drop (A B : List (List Bool)) :
    allTrueM ((setLastTrue B.length (A ++ B)).drop A.length) := by
  by_cases hB : B.length = 0
  · rw [List.length_eq_zero] at hB
    subst hB
    unfold setLastTrue
    simp only [List.length_nil, if_pos rfl]
    exact allTrueM_drop (allTrueM_mapTrue _) _
  · rw [setLastTrue_append A B hB, List.drop_left]
    exact allTrueM_mapTrue B

theorem allOnesM_nil : allOnesM [] := by
  intro r hr
  simp at hr

theorem allTrueM_nil : allTrueM [] := by
  intro r hr
  simp at hr

theorem syncVis_pos (v : VisTab) (v2 : Vis2Tab) (mjdU : List ℚ)
    (h : v.MJD.length < mjdU.length) :
    syncVis v v2 mjdU =
    { MJD := v.MJD ++ maskSel (missW v2.MJD v.MJD) v2.MJD
      u := v.u ++ maskSel (missW v2.MJD v.MJD) v2.u
      v := v.v ++ maskSel (missW v2.MJD v.MJD) v2.v
      uwl := v.uwl ++ maskSel (missW v2.MJD v.MJD) v2.uwl
      vwl := v.vwl ++ maskSel (missW v2.MJD v.MJD) v2.vwl
      Bwl := v.Bwl ++ maskSel (missW v2.MJD v.MJD) v2.Bwl
      PA := v.PA ++ maskSel (missW v2.MJD v.MJD) v2.PA
      vamp := v.vamp ++ onesLike (maskSel (missW v2.MJD v.MJD) v2.V2)
      evamp := v.evamp ++ onesLike (maskSel (missW v2.MJD v.MJD) v2.V2)
      PHI := v.PHI ++ onesLike (maskSel (missW v2.MJD v.MJD) v2.V2)
      EPHI := v.EPHI ++ onesLike (maskSel (missW v2.MJD v.MJD) v2.V2)
      FLAG := setLastTrue (maskCount (missW v2.MJD v.MJD))
        (v.FLAG ++ maskSel (missW v2.MJD v.MJD) v2.FLAG) } := by
  rw [syncVis, if_pos h]

theorem syncVis_neg (v : VisTab) (v2 : Vis2Tab) (mjdU : List ℚ)
    (h : ¬ v.MJD.length < mjdU.length) :
    syncVis v v2 mjdU = v := by
  rw [syncVis, if_neg h]

theorem syncVis2_pos (vp : VisTab) (v2 : Vis2Tab) (mjdU : List ℚ)
    (h : v2.MJD.length ≠ mjdU.length) :
    syncVis2 vp v2 mjdU =
    { MJD := v2.MJD ++ maskSel (missW vp.MJD v2.MJD) vp.MJD
      u := v2.u ++ maskSel (missW vp.MJD v2.MJD) vp.u
      v := v2.v ++ maskSel (missW vp.MJD v2.MJD) vp.v
      uwl := v2.uwl ++ maskSel (missW vp.MJD v2.MJD) vp.uwl
      vwl := v2.vwl ++ maskSel (missW vp.MJD v2.MJD) vp.vwl
      Bwl := v2.Bwl ++ maskSel (missW vp.MJD v2.MJD) vp.Bwl
      PA := v2.PA ++ maskSel (missW vp.MJD v2.MJD) vp.PA
      V2 := v2.V2 ++ onesLike (maskSel (missW vp.MJD v2.MJD) vp.vamp)
      EV2 := v2.EV2 ++ onesLike (maskSel (missW vp.MJD v2.MJD) vp.vamp)
      FLAG := setLastTrue (maskCount (missW vp.MJD v2.MJD))
        (v2.FLAG ++ maskSel (missW vp.MJD v2.MJD) vp.FLAG) } := by
  rw [syncVis2, if_pos h]

theorem syncVis2_neg (vp : VisTab) (v2 : Vis2Tab) (mjdU : List ℚ)
    (h : ¬ v2.MJD.length ≠ mjdU.length) :
    syncVis2 vp v2 mjdU = v2 := by
  rw [syncVis2, if_neg h]

theorem missW_length (otherMJD selfMJD : List ℚ) :
    (missW otherMJD selfMJD).length = otherMJD.length := by
  rw [missW, List.length_map]

theorem syncVis_drop (v : VisTab) (v2 : Vis2Tab) (mjdU : List ℚ)
    (hv2 : v2.FLAG.length = v2.MJD.length) :
    allOnesM ((syncVis v v2 mjdU).vamp.drop v.vamp.length) ∧
    allOnesM ((syncVis v v2 mjdU).evamp.drop v.evamp.length) ∧
    allOnesM ((syncVis v v2 mjdU).PHI.drop v.PHI.length) ∧
    allOnesM ((syncVis v v2 mjdU).EPHI.drop v.EPHI.length) ∧
    allTrueM ((syncVis v v2 mjdU).FLAG.drop v.FLAG.length) := by
  by_cases h : v.MJD.length < mjdU.length
  · rw [syncVis_pos v v2 mjdU h]
    have hwlen : (missW v2.MJD v.MJD).length = v2.FLAG.length := by
      rw [missW_length, hv2]
    have hsel : (maskSel (missW v2.MJD v.MJD) v2.FLAG).length
        = maskCount (missW v2.MJD v.MJD) :=
      maskSel_length _ _ hwlen
    refine ⟨?_, ?_, ?_, ?_, ?_⟩
    · rw [List.drop_left]
      exact allOnesM_onesLike _
    · rw [List.drop_left]
      exact allOnesM_onesLike _
    · rw [List.drop_left]
      exact allOnesM_onesLike _
    · rw [List.drop_left]
      exact allOnesM_onesLike _
    · rw [← hsel]
      exact setLastTrue_append_drop v.FLAG _
  · rw [syncVis_neg v v2 mjdU h]
    refine ⟨?_, ?_, ?_, ?_, ?_⟩
    · rw [List.drop_length]
      exact allOnesM_nil
    · rw [List.drop_length]
      exact allOnesM_nil
    · rw [List.drop_length]
      exact allOnesM_nil
    · rw [List.drop_length]
      exact allOnesM_nil
    · rw [List.drop_length]
      exact allTrueM_nil

theorem syncVis_all (v : VisTab) (v2 : Vis2Tab) (mjdU : List ℚ)
    (hv2 : v2.FLAG.length = v2.MJD.length)
    (h1 : allOnesM v.vamp) (h2 : allOnesM v.evamp)
    (h3 : allOnesM v.PHI) (h4 : allOnesM v.EPHI) (h5 : allTrueM v.FLAG) :
    allOnesM (syncVis v v2 mjdU).vamp ∧
    allOnesM (syncVis v v2 mjdU).evamp ∧
    allOnesM (syncVis v v2 mjdU).PHI ∧
    allOnesM (syncVis v v2 mjdU).EPHI ∧
    allTrueM (syncVis v v2 mjdU).FLAG := by
  by_cases h : v.MJD.length < mjdU.length
  · rw [syncVis_pos v v2 mjdU h]
    have hwlen : (missW v2.MJD v.MJD).length = v2.FLAG.length := by
      rw [missW_length, hv2]
    have hsel : (maskSel (missW v2.MJD v.MJD) v2.FLAG).length
        = maskCount (missW v2.MJD v.MJD) :=
      maskSel_length _ _ hwlen
    refine ⟨?_, ?_, ?_, ?_, ?_⟩
    · exact allOnesM_append h1 (allOnesM_onesLike _)
    · exact allOnesM_append h2 (allOnesM_onesLike _)
    · exact allOnesM_append h3 (allOnesM_onesLike _)
    · exact allOnesM_append h4 (allOnesM_onesLike _)
    · rw [← hsel]
      exact setLastTrue_append_allTrue v.FLAG _ h5
  · rw [syncVis_neg v v2 mjdU h]
    exact ⟨h1, h2, h3, h4, h5⟩

theorem syncVis_flagWF (v : VisTab) (v2 : Vis2Tab) (mjdU : List ℚ)
    (hv : v.FLAG.length = v.MJD.length)
    (hv2 : v2.FLAG.length = v2.MJD.length) :
    (syncVis v v2 mjdU).FLAG.length = (syncVis v v2 mjdU).MJD.length := by
  by_cases h : v.MJD.length < mjdU.length
  · rw [syncVis_pos v v2 mjdU h]
    have hwlenF : (missW v2.MJD v.MJD).length = v2.FLAG.length := by
      rw [missW_length, hv2]
    have hwlenM : (missW v2.MJD v.MJD).length = v2.MJD.length :=
      missW_length _ _
    show (setLastTrue _ _).length = _
    rw [setLastTrue_length, List.length_append, List.length_append,
        maskSel_length _ _ hwlenF, maskSel_length _ _ hwlenM, hv]
  · rw [syncVis_neg v v2 mjdU h]
    exact hv

theorem syncVis2_drop (vp : VisTab) (v2 : Vis2Tab) (mjdU : List ℚ)
    (hvp : vp.FLAG.length = vp.MJD.length) :
    allOnesM ((syncVis2 vp v2 mjdU).V2.drop v2.V2.length) ∧
    allOnesM ((syncVis2 vp v2 mjdU).EV2.drop v2.EV2.length) ∧
    allTrueM ((syncVis2 vp v2 mjdU).FLAG.drop v2.FLAG.length) := by
  by_cases h : v2.MJD.length ≠ mjdU.length
  · rw [syncVis2_pos vp v2 mjdU h]
    have hwlen : (missW vp.MJD v2.MJD).length = vp.FLAG.length := by
      rw [missW_length, hvp]
    have hsel : (maskSel (missW vp.MJD v2.MJD) vp.FLAG).length
        = maskCount (missW vp.MJD v2.MJD) :=
      maskSel_length _ _ hwlen
    refine ⟨?_, ?_, ?_⟩
    · rw [List.drop_left]
      exact allOnesM_onesLike _
    · rw [List.drop_left]
      exact allOnesM_onesLike _
    · rw [← hsel]
      exact setLastTrue_append_drop v2.FLAG _
  · rw [syncVis2_neg vp v2 mjdU h]
    refine ⟨?_, ?_, ?_⟩
    · rw [List.drop_length]
      exact allOnesM_nil
    · rw [List.drop_length]
      exact allOnesM_nil
    · rw [List.drop_length]
      exact allTrueM_nil

theorem syncVis2_all (vp : VisTab) (v2 : Vis2Tab) (mjdU : List ℚ)
    (hvp : vp.FLAG.length = vp.MJD.length)
    (h1 : allOnesM v2.V2) (h2 : allOnesM v2.EV2) (h5 : allTrueM v2.FLAG) :
    allOnesM (syncVis2 vp v2 mjdU).V2 ∧
    allOnesM (syncVis2 vp v2 mjdU).EV2 ∧
    allTrueM (syncVis2 vp v2 mjdU).FLAG := by
  by_cases h : v2.MJD.length ≠ mjdU.length
  · rw [syncVis2_pos vp v2 mjdU h]
    have hwlen : (missW vp.MJD v2.MJD).length = vp.FLAG.length := by
      rw [missW_length, hvp]
    have hsel : (maskSel (missW vp.MJD v2.MJD) vp.FLAG).length
        = maskCount (missW vp.MJD v2.MJD) :=
      maskSel_length _ _ hwlen
    refine ⟨?_, ?_, ?_⟩
    · exact allOnesM_append h1 (allOnesM_onesLike _)
    · exact allOnesM_append h2 (allOnesM_onesLike _)
    · rw [← hsel]
      exact setLastTrue_append_allTrue v2.FLAG _ h5
  · rw [syncVis2_neg vp v2 mjdU h]
    exact ⟨h1, h2, h5⟩

/-- Claim C3: after the merge-time reconciliation of the visibility and
squared-visibility categories, every baseline name present in either
category is present in both (the reconciler of one name always yields both
tables), and every row fabricated on the side that was missing the name, or
missing an epoch, has its value columns equal to one and its flag row all
true. -/
theorem C3_merge_vis_vis2 (ov : Option VisTab) (ov2 : Option Vis2Tab)
    (hwv : ∀ t ∈ ov, t.FLAG.length = t.MJD.length)
    (hwv2 : ∀ t ∈ ov2, t.FLAG.length = t.MJD.length)
    (hsome : ov.isSome ∨ ov2.isSome) :
    ∃ p, reconcilePair ov ov2 = some p ∧
      (ov = none → allOnesM p.1.vamp ∧ allOnesM p.1.evamp ∧ allOnesM p.1.PHI ∧
          allOnesM p.1.EPHI ∧ allTrueM p.1.FLAG) ∧
      (ov2 = none → allOnesM p.2.V2 ∧ allOnesM p.2.EV2 ∧ allTrueM p.2.FLAG) ∧
      (∀ v v2, ov = some v → ov2 = some v2 →
          allOnesM (p.1.vamp.drop v.vamp.length) ∧
          allOnesM (p.1.evamp.drop v.evamp.length) ∧
          allOnesM (p.1.PHI.drop v.PHI.length) ∧
          allOnesM (p.1.EPHI.drop v.EPHI.length) ∧
          allTrueM (p.1.FLAG.drop v.FLAG.length) ∧
          allOnesM (p.2.V2.drop v2.V2.length) ∧
          allOnesM (p.2.EV2.drop v2.EV2.length) ∧
          allTrueM (p.2.FLAG.drop v2.FLAG.length)) := by
  cases ov with
  | none =>
    cases ov2 with
    | none => simp at hsome
    | some v2 =>
      have hv2 : v2.FLAG.length = v2.MJD.length := hwv2 v2 rfl
      have hfab : (visFromVis2 v2).FLAG.length = (visFromVis2 v2).MJD.length := by
        show (trueLike v2.FLAG).length = v2.MJD.length
        rw [trueLike, List.length_map, hv2]
      refine ⟨syncEpochs (visFromVis2 v2) v2, rfl, ?_, ?_, ?_⟩
      · intro _
        have hall := syncVis_all (visFromVis2 v2) v2 ((visFromVis2 v2).MJD ++ v2.MJD).dedup hv2
          (allOnesM_onesLike _) (allOnesM_onesLike _) (allOnesM_onesLike _)
          (allOnesM_onesLike _) (allTrueM_trueLike _)
        exact hall
      · intro h
        exact absurd h (by simp)
      · intro v v2b hv hv2b
        exact absurd hv (by simp)
  | some v =>
    have hvwf : v.FLAG.length = v.MJD.length := hwv v rfl
    cases ov2 with
    | none =>
      have hfab : (vis2FromVis v).FLAG.length = (vis2FromVis v).MJD.length := by
        show (trueLike v.FLAG).length = v.MJD.length
        rw [trueLike, List.length_map, hvwf]
      refine ⟨syncEpochs v (vis2FromVis v), rfl, ?_, ?_, ?_⟩
      · intro h
        exact absurd h (by simp)
      · intro _
        have hvp : (syncVis v (vis2FromVis v) ((v.MJD ++ (vis2FromVis v).MJD).dedup)).FLAG.length
            = (syncVis v (vis2FromVis v) ((v.MJD ++ (vis2FromVis v).MJD).dedup)).MJD.length :=
          syncVis_flagWF v (vis2FromVis v) _ hvwf hfab
        have hall := syncVis2_all _ (vis2FromVis v) ((v.MJD ++ (vis2FromVis v).MJD).dedup) hvp
          (allOnesM_onesLike _) (allOnesM_onesLike _) (allTrueM_trueLike _)
        exact hall
      · intro v0 v2b hv0 hv2b
        exact absurd hv2b (by simp)
    | some v2 =>
      have hv2wf : v2.FLAG.length = v2.MJD.length := hwv2 v2 rfl
      refine ⟨syncEpochs v v2, rfl, ?_, ?_, ?_⟩
      · intro h
        exact absurd h (by simp)
      · intro h
        exact absurd h (by simp)
      · intro v0 v2b hv0 hv2b
        have e1 : v = v0 := by injection hv0
        have e2 : v2 = v2b := by injection hv2b
        rw [← e1, ← e2]
        have hd1 := syncVis_drop v v2 ((v.MJD ++ v2.MJD).dedup) hv2wf
        have hvp : (syncVis v v2 ((v.MJD ++ v2.MJD).dedup)).FLAG.length
            = (syncVis v v2 ((v.MJD ++ v2.MJD).dedup)).MJD.length :=
          syncVis_flagWF v v2 _ hvwf hv2wf
        have hd2 := syncVis2_drop _ v2 ((v.MJD ++ v2.MJD).dedup) hvp
        exact ⟨hd1.1, hd1.2.1, hd1.2.2.1, hd1.2.2.2.1, hd1.2.2.2.2,
               hd2.1, hd2.2.1, hd2.2.2⟩

/-- Concrete squared-visibility table with two epochs, one flagged entry. -/
def vis2C : Vis2Tab :=
  ⟨[1, 2], [5, 6], [7, 8], [[5], [6]], [[7], [8]], [[9], [10]], [[0], [0]],
   [[3], [4]], [[1], [1]], [[false], [true]]⟩

/-- Witness for `C3_merge_vis_vis2`: the name exists only in OI_VIS2, so the
whole fabricated OI_VIS table is unit-valued and fully flagged. -/
theorem C3_merge_vis_vis2_witness :
    ∃ p, reconcilePair none (some vis2C) = some p ∧
      ((none : Option VisTab) = none → allOnesM p.1.vamp ∧ allOnesM p.1.evamp ∧
          allOnesM p.1.PHI ∧ allOnesM p.1.EPHI ∧ allTrueM p.1.FLAG) ∧
      ((some vis2C : Option Vis2Tab) = none → allOnesM p.2.V2 ∧ allOnesM p.2.EV2 ∧
          allTrueM p.2.FLAG) ∧
      (∀ v v2, (none : Option VisTab) = some v → (some vis2C : Option Vis2Tab) = some v2 →
          allOnesM (p.1.vamp.drop v.vamp.length) ∧
          allOnesM (p.1.evamp.drop v.evamp.length) ∧
          allOnesM (p.1.PHI.drop v.PHI.length) ∧
          allOnesM (p.1.EPHI.drop v.EPHI.length) ∧
          allTrueM (p.1.FLAG.drop v.FLAG.length) ∧
          allOnesM (p.2.V2.drop v2.V2.length) ∧
          allOnesM (p.2.EV2.drop v2.EV2.length) ∧
          allTrueM (p.2.FLAG.drop v2.FLAG.length)) :=
  C3_merge_vis_vis2 none (some vis2C)
    (by intro t ht; simp at ht)
    (by intro t ht; cases ht; rfl)
    (by simp)

/-! ## Epoch alignment of triangles to baseline rows (loadOI lines 593-635)

For each triangle epoch, the matching baseline row is the argmin of the
absolute epoch difference when that minimum is below 1e-4; otherwise a
zero-signal fully-flagged row is appended to the baseline table and its
index (the old table length) is used.  The step is embedded for the first
leg against an OI_VIS2 table, which is the code path of lines 595-635. -/

/-- Numpy `min` of a nonempty float array (0 on the empty array, which the
source never passes here). -/
noncomputable def npMinR (l : List ℝ) : ℝ :=
  match l with
  | [] => 0
  | a :: t => t.foldl min a

/-- Numpy `argmin`: index of the first occurrence of the minimum. -/
noncomputable def npArgminR (l : List ℝ) : Nat :=
  l.findIdx (fun x => decide (x ≤ npMinR l))

theorem foldl_min_le_init (t : List ℝ) (a : ℝ) : t.foldl min a ≤ a := by
  induction t generalizing a with
  | nil => exact le_refl a
  | cons b t ih => exact le_trans (ih (min a b)) (min_le_left a b)

theorem foldl_min_le_mem (t : List ℝ) (a x : ℝ) (hx : x ∈ t) : t.foldl min a ≤ x := by
  induction t generalizing a with
  | nil => simp at hx
  | cons b t ih =>
    rcases List.mem_cons.mp hx with rfl | hx
    · exact le_trans (foldl_min_le_init t (min a x)) (min_le_right a x)
    · exact ih (min a b) hx

theorem foldl_min_mem (t : List ℝ) (a : ℝ) : t.foldl min a = a ∨ t.foldl min a ∈ t := by
  induction t generalizing a with
  | nil => exact Or.inl rfl
  | cons b t ih =>
    rcases ih (min a b) with h | h
    · rcases min_choice a b with h2 | h2
      · exact Or.inl (by rw [List.foldl_cons, h, h2])
      · refine Or.inr ?_
        rw [List.foldl_cons, h, h2]
        exact List.mem_cons_self b t
    · exact Or.inr (List.mem_cons_of_mem b h)

theorem npMinR_le (l : List ℝ) (x : ℝ) (hx : x ∈ l) : npMinR l ≤ x := by
  cases l with
  | nil => simp at hx
  | cons a t =>
    rcases List.mem_cons.mp hx with rfl | hx
    · exact foldl_min_le_init t x
    · exact foldl_min_le_mem t a x hx

theorem npMinR_mem (l : List ℝ) (h : l ≠ []) : npMinR l ∈ l := by
  cases l with
  | nil => exact absurd rfl h
  | cons a t =>
    rcases foldl_min_mem t a with h2 | h2
    · rw [npMinR, h2]
      exact List.mem_cons_self a t
    · exact List.mem_cons_of_mem a h2

theorem npArgminR_lt (l : List ℝ) (h : l ≠ []) : npArgminR l < l.length :=
  List.findIdx_lt_length_of_exists ⟨npMinR l, npMinR_mem l h, by simp⟩

theorem npArgminR_getD (l : List ℝ) (h : l ≠ []) : l.getD (npArgminR l) 0 = npMinR l := by
  have hlt := npArgminR_lt l h
  rw [List.getD_eq_getElem l 0 hlt]
  have hp := @List.findIdx_getElem ℝ (fun x => decide (x ≤ npMinR l)) l hlt
  have h1 : l[npArgminR l] ≤ npMinR l := by simpa using hp
  exact le_antisymm h1 (npMinR_le l _ (l.getElem_mem hlt))

/-- Numpy `angle(re + 1j*im, deg=True)`. -/
noncomputable def npAngleDeg (re im : ℝ) : ℝ :=
  Complex.arg ⟨re, im⟩ * 180 / Real.pi

/-- One OI_VIS2 baseline table for the epoch-alignment step, over the
reals since the appended derived fields involve sqrt and arctangent. -/
structure V2Tab where
  MJD : List ℝ
  u : List ℝ
  v : List ℝ
  uwl : List (List ℝ)
  vwl : List (List ℝ)
  Bwl : List (List ℝ)
  PA : List (List ℝ)
  V2 : List (List ℝ)
  EV2 : List (List ℝ)
  FLAG : List (List Bool)

/-- Lines 601-635 (key OI_VIS2): append the zero-signal fully-flagged fake
row for an unmatched triangle epoch; coordinates are the sign-corrected
triangle leg coordinates, and PA is recomputed from the grown u/wl, v/wl. -/
noncomputable def appendFake (WL : List ℝ) (tb : V2Tab) (mjd u1 v1 s : ℝ) : V2Tab :=
  { MJD := tb.MJD ++ [mjd]
    u := tb.u ++ [s * u1]
    v := tb.v ++ [s * v1]
    uwl := tb.uwl ++ [WL.map (fun wl => s * (u1 / wl))]
    vwl := tb.vwl ++ [WL.map (fun wl => s * (v1 / wl))]
    Bwl := tb.Bwl ++ [WL.map (fun wl => Real.sqrt (u1 ^ 2 + v1 ^ 2) / wl)]
    PA := List.zipWith (fun vr ur => List.zipWith npAngleDeg vr ur)
      (tb.vwl ++ [WL.map (fun wl => s * (v1 / wl))])
      (tb.uwl ++ [WL.map (fun wl => s * (u1 / wl))])
    V2 := tb.V2 ++ [WL.map (fun _ => 0)]
    EV2 := tb.EV2 ++ [WL.map (fun _ => (1 : ℝ))]
    FLAG := tb.FLAG ++ [WL.map (fun _ => true)] }

/-- Lines 595-635: the per-epoch alignment step.  The hit test is
`min(abs(MJD - mjd)) < 1e-4`; on a hit the argmin row index is used and the
table is untouched, on a miss the index appended is the current length and
the fake row is added. -/
noncomputable def alignOne (WL : List ℝ) (tb : V2Tab) (mjd u1 v1 s : ℝ) : Nat × V2Tab :=
  if npMinR (tb.MJD.map (fun m => |m - mjd|)) < 1e-4 then
    (npArgminR (tb.MJD.map (fun m => |m - mjd|)), tb)
  else
    (tb.MJD.length, appendFake WL tb mjd u1 v1 s)

/-- Claim C8: epoch alignment returns the index minimizing the absolute
epoch difference whenever that minimum is below the 1e-4 tolerance (and
leaves the table unchanged), and otherwise uses the index of a new
zero-signal fully-flagged row appended for the missing epoch. -/
theorem C8_epoch_alignment (WL : List ℝ) (tb : V2Tab) (mjd u1 v1 s : ℝ)
    (hne : tb.MJD ≠ []) :
    (npMinR (tb.MJD.map (fun m => |m - mjd|)) < 1e-4 →
      (alignOne WL tb mjd u1 v1 s).2 = tb ∧
      (alignOne WL tb mjd u1 v1 s).1 < tb.MJD.length ∧
      ∀ j < tb.MJD.length,
        |tb.MJD.getD ((alignOne WL tb mjd u1 v1 s).1) 0 - mjd| ≤ |tb.MJD.getD j 0 - mjd|) ∧
    (¬ npMinR (tb.MJD.map (fun m => |m - mjd|)) < 1e-4 →
      (alignOne WL tb mjd u1 v1 s).1 = tb.MJD.length ∧
      (alignOne WL tb mjd u1 v1 s).2.MJD = tb.MJD ++ [mjd] ∧
      (alignOne WL tb mjd u1 v1 s).2.V2 = tb.V2 ++ [WL.map (fun _ => 0)] ∧
      (alignOne WL tb mjd u1 v1 s).2.EV2 = tb.EV2 ++ [WL.map (fun _ => (1 : ℝ))] ∧
      (alignOne WL tb mjd u1 v1 s).2.FLAG = tb.FLAG ++ [WL.map (fun _ => true)] ∧
      (alignOne WL tb mjd u1 v1 s).2.u = tb.u ++ [s * u1] ∧
      (alignOne WL tb mjd u1 v1 s).2.v = tb.v ++ [s * v1]) := by
  have hLne : tb.MJD.map (fun m => |m - mjd|) ≠ [] := by
    intro hL
    exact hne (List.map_eq_nil_iff.mp hL)
  constructor
  · intro hhit
    rw [alignOne, if_pos hhit]
    refine ⟨rfl, ?_, ?_⟩
    · have := npArgminR_lt _ hLne
      rwa [List.length_map] at this
    · intro j hj
      have hlt : npArgminR (tb.MJD.map (fun m => |m - mjd|)) < tb.MJD.length := by
        have := npArgminR_lt _ hLne
        rwa [List.length_map] at this
      have hLlt : npArgminR (tb.MJD.map (fun m => |m - mjd|))
          < (tb.MJD.map (fun m => |m - mjd|)).length := npArgminR_lt _ hLne
      have hargm : |tb.MJD.getD (npArgminR (tb.MJD.map (fun m => |m - mjd|))) 0 - mjd|
          = npMinR (tb.MJD.map (fun m => |m - mjd|)) := by
        rw [← npArgminR_getD _ hLne, List.getD_eq_getElem tb.MJD 0 hlt,
            List.getD_eq_getElem _ 0 hLlt, List.getElem_map]
      have hj2 : |tb.MJD.getD j 0 - mjd| ∈ tb.MJD.map (fun m => |m - mjd|) := by
        rw [List.getD_eq_getElem _ 0 hj]
        exact List.mem_map.mpr ⟨tb.MJD[j], tb.MJD.getElem_mem hj, rfl⟩
      rw [hargm]
      exact npMinR_le _ _ hj2
  · intro hmiss
    rw [alignOne, if_neg hmiss]
    exact ⟨rfl, rfl, rfl, rfl, rfl, rfl, rfl⟩

/-- A one-row OI_VIS2 table at epoch 0. -/
noncomputable def tbC8 : V2Tab :=
  ⟨[0], [3], [4], [[3]], [[4]], [[5]], [[53]], [[1]], [[1]], [[false]]⟩

/-- Witness for `C8_epoch_alignment` at a concrete table: aligning epoch 1
against the single epoch 0 misses the tolerance, so a fake row is appended
and its index used. -/
theorem C8_epoch_alignment_witness :
    (npMinR (tbC8.MJD.map (fun m => |m - (1 : ℝ)|)) < 1e-4 →
      (alignOne [1] tbC8 1 10 20 (-1)).2 = tbC8 ∧
      (alignOne [1] tbC8 1 10 20 (-1)).1 < tbC8.MJD.length ∧
      ∀ j < tbC8.MJD.length,
        |tbC8.MJD.getD ((alignOne [1] tbC8 1 10 20 (-1)).1) 0 - 1| ≤ |tbC8.MJD.getD j 0 - 1|) ∧
    (¬ npMinR (tbC8.MJD.map (fun m => |m - (1 : ℝ)|)) < 1e-4 →
      (alignOne [1] tbC8 1 10 20 (-1)).1 = tbC8.MJD.length ∧
      (alignOne [1] tbC8 1 10 20 (-1)).2.MJD = tbC8.MJD ++ [1] ∧
      (alignOne [1] tbC8 1 10 20 (-1)).2.V2 = tbC8.V2 ++ [[1].map (fun _ => 0)] ∧
      (alignOne [1] tbC8 1 10 20 (-1)).2.EV2 = tbC8.EV2 ++ [[1].map (fun _ => (1 : ℝ))] ∧
      (alignOne [1] tbC8 1 10 20 (-1)).2.FLAG = tbC8.FLAG ++ [[1].map (fun _ => true)] ∧
      (alignOne [1] tbC8 1 10 20 (-1)).2.u = tbC8.u ++ [(-1) * 10] ∧
      (alignOne [1] tbC8 1 10 20 (-1)).2.v = tbC8.v ++ [(-1) * 20]) :=
  C8_epoch_alignment [1] tbC8 1 10 20 (-1) (by simp [tbC8])

/-! ## The rebinner (_binVec lines 830-844 and binOI lines 807-828)

`_binVec` computes, for every new-grid point x0, the kernel-weighted
average `sum(k*Y/E)/sum(k/E)` with `k = exp(-(X-x0)**2/(0.6*dx)**2)` and
`dx = median(diff(x))` the median spacing of the new grid; `E` defaults to
all ones.  Everything after the `return y` of line 844 is unreachable, so
the median-filter parameter has no effect and is dropped here.  `binOI`
applies `_binVec` per row to the unflagged samples, and bins the flag row
(as floats, unmasked, without errors) thresholding at 0.5. -/

/-- Numpy `diff`: successive differences. -/
def diffs : List ℝ → List ℝ
  | a :: b :: t => (b - a) :: diffs (b :: t)
  | _ => []

/-- Insertion step of the sort underlying the median. -/
noncomputable def insertR (a : ℝ) : List ℝ → List ℝ
  | [] => [a]
  | b :: t => if a ≤ b then a :: b :: t else b :: insertR a t

/-- Insertion sort on reals. -/
noncomputable def sortR : List ℝ → List ℝ
  | [] => []
  | a :: t => insertR a (sortR t)

/-- Numpy `median`: middle of the sorted values, or the average of the two
middle values for even length (junk 0 for the empty list, where numpy
returns nan). -/
noncomputable def npMedian (l : List ℝ) : ℝ :=
  if l.length % 2 = 1 then (sortR l).getD (l.length / 2) 0
  else ((sortR l).getD (l.length / 2 - 1) 0 + (sortR l).getD (l.length / 2) 0) / 2

/-- The Gaussian kernel weight `exp(-(Xj-x0)**2/(0.6*dx)**2)` of line 841. -/
noncomputable def gaussK (dx x0 Xj : ℝ) : ℝ :=
  Real.exp (-(Xj - x0) ^ 2 / (0.6 * dx) ^ 2)

/-- `_binVec` with an explicit error vector: per new-grid point,
`sum(k*Y/E)/sum(k/E)` (lines 839-844). -/
noncomputable def binVecW (x X Y E : List ℝ) : List ℝ :=
  x.map (fun x0 =>
    (List.zipWith (fun Xj YE => gaussK (npMedian (diffs x)) x0 Xj * YE.1 / YE.2) X (Y.zip E)).sum /
    (List.zipWith (fun Xj Ej => gaussK (npMedian (diffs x)) x0 Xj / Ej) X E).sum)

/-- `_binVec`: the error vector defaults to `ones(len(Y))` (line 836). -/
noncomputable def binVec (x X Y : List ℝ) (E : Option (List ℝ)) : List ℝ :=
  binVecW x X Y (E.getD (List.replicate Y.length 1))

/-- `np.float_` of a bool. -/
noncomputable def boolR (b : Bool) : ℝ :=
  if b then 1 else 0

/-- One value row of binOI (lines 817-823): mask the old grid, the data row
and the error row by the negated flags, then kernel-average. -/
noncomputable def binOIvalRow (x X Trow : List ℝ) (Frow : List Bool) (Erow : Option (List ℝ)) :
    List ℝ :=
  binVec x (maskSel (Frow.map (fun b => !b)) X) (maskSel (Frow.map (fun b => !b)) Trow)
    (Erow.map (maskSel (Frow.map (fun b => !b))))

/-- One flag row of binOI (line 818): bin the float flags over the whole
grid with no errors and threshold at 0.5. -/
noncomputable def binOIflagRow (x X : List ℝ) (Frow : List Bool) : List Bool :=
  (binVec x X (Frow.map boolR) none).map (fun yv => decide (yv > 0.5))

/-- binOI (lines 807-828): bin every row of the table; with an error table
each data row is weighted by its error row. -/
noncomputable def binOI (x X : List ℝ) (T : List (List ℝ)) (F : List (List Bool))
    (E : Option (List (List ℝ))) : List (List ℝ) × List (List Bool) :=
  (match E with
   | none => (T.zip F).map (fun p => binOIvalRow x X p.1 p.2 none)
   | some Em => ((T.zip F).zip Em).map (fun p => binOIvalRow x X p.1.1 p.1.2 (some p.2)),
   F.map (fun Frow => binOIflagRow x X Frow))

theorem zipWith_map_zip (f : α → β → γ) (A : List α) (B : List β) :
    List.zipWith f A B = (A.zip B).map (fun p => f p.1 p.2) := by
  induction A generalizing B with
  | nil => simp
  | cons a A ih =>
    cases B with
    | nil => simp
    | cons b B => simp [ih]

theorem maskSel_nil (w : List Bool) : maskSel w ([] : List α) = [] := by
  cases w <;> simp [maskSel]

theorem maskSel_zip (w : List Bool) (A : List α) (B : List β) (h : A.length = B.length) :
    (maskSel w A).zip (maskSel w B) = maskSel w (A.zip B) := by
  induction w generalizing A B with
  | nil => simp [maskSel]
  | cons b w ih =>
    cases A with
    | nil =>
      cases B with
      | nil => simp [maskSel]
      | cons c B => simp at h
    | cons a A =>
      cases B with
      | nil => simp at h
      | cons c B =>
        have h2 : A.length = B.length := by simpa using h
        rw [List.zip_cons_cons, maskSel_cons, maskSel_cons, maskSel_cons]
        cases b
        · simpa using ih A B h2
        · simp only [if_true, List.zip_cons_cons]
          rw [ih A B h2]

theorem maskSel_filter (Fr : List Bool) (L : List α) (h : L.length = Fr.length) :
    maskSel (Fr.map (fun b => !b)) L
      = ((L.zip Fr).filter (fun p => !p.2)).map (fun p => p.1) := by
  induction Fr generalizing L with
  | nil =>
    cases L with
    | nil => simp [maskSel]
    | cons a L => simp at h
  | cons b Fr ih =>
    cases L with
    | nil => simp at h
    | cons a L =>
      have h2 : L.length = Fr.length := by simpa using h
      rw [List.map_cons, maskSel_cons, List.zip_cons_cons, List.filter_cons]
      cases b
      · simp [ih L h2]
      · simp [ih L h2]

theorem maskSel_map (w : List Bool) (L : List α) (g : α → β) :
    maskSel w (L.map g) = (maskSel w L).map g := by
  induction w generalizing L with
  | nil => simp [maskSel]
  | cons b w ih =>
    cases L with
    | nil => simp [maskSel]
    | cons a L =>
      rw [List.map_cons, maskSel_cons, maskSel_cons]
      cases b
      · simpa using ih L
      · simp only [if_true, List.map_cons]
        rw [ih L]

theorem maskSel_length_eq (w : List Bool) (A : List α) (B : List β) (h : A.length = B.length) :
    (maskSel w A).length = (maskSel w B).length := by
  induction w generalizing A B with
  | nil => simp [maskSel]
  | cons b w ih =>
    cases A with
    | nil =>
      cases B with
      | nil => rfl
      | cons c B => simp at h
    | cons a A =>
      cases B with
      | nil => simp at h
      | cons c B =>
        have h2 : A.length = B.length := by simpa using h
        rw [maskSel_cons, maskSel_cons]
        cases b
        · simpa using ih A B h2
        · simpa using ih A B h2

theorem maskSel_mapTrue (A : List α) (M : List β) (h : M.length = A.length) :
    maskSel (A.map (fun _ => true)) M = M := by
  induction A generalizing M with
  | nil =>
    cases M with
    | nil => rfl
    | cons m M => simp at h
  | cons a A ih =>
    cases M with
    | nil => simp at h
    | cons m M =>
      have h2 : M.length = A.length := by simpa using h
      rw [List.map_cons, maskSel_cons, if_pos rfl, ih M h2]

theorem maskSel_replicate_one (w : List Bool) (X A : List ℝ) (hA : A.length = X.length) :
    List.replicate (maskSel w A).length (1 : ℝ) = maskSel w (List.replicate X.length (1 : ℝ)) := by
  have h1 : List.replicate X.length (1 : ℝ) = X.map (fun _ => 1) := (List.map_const' X 1).symm
  rw [h1, maskSel_map, List.map_const']
  congr 1
  exact maskSel_length_eq w A X hA

/-- The kernel-average of one masked row equals the weighted sum over the
unflagged samples of the full row, divided by the weight sum over the same
samples. -/
theorem binVecW_masked (x X Tr Er : List ℝ) (Fr : List Bool)
    (hT : Tr.length = X.length) (hF : Fr.length = X.length) (hE : Er.length = X.length)
    (j : Nat) (hj : j < x.length) :
    (binVecW x (maskSel (Fr.map (fun b => !b)) X) (maskSel (Fr.map (fun b => !b)) Tr)
        (maskSel (Fr.map (fun b => !b)) Er)).getD j 0 =
      ((((X.zip (Tr.zip Er)).zip Fr).filter (fun p => !p.2)).map
        (fun p => gaussK (npMedian (diffs x)) (x.getD j 0) p.1.1 * p.1.2.1 / p.1.2.2)).sum /
      ((((X.zip Er).zip Fr).filter (fun p => !p.2)).map
        (fun p => gaussK (npMedian (diffs x)) (x.getD j 0) p.1.1 / p.1.2)).sum := by
  have hTE : Tr.length = Er.length := hT.trans hE.symm
  have hXze : X.length = (Tr.zip Er).length := by
    simp [List.length_zip, hT, hE]
  have hXe : X.length = Er.length := hE.symm
  have hzF : (X.zip (Tr.zip Er)).length = Fr.length := by
    simp [List.length_zip, hT, hE, hF]
  have hzF2 : (X.zip Er).length = Fr.length := by
    simp [List.length_zip, hE, hF]
  rw [binVecW, List.getD_eq_getElem _ 0 (by simpa using hj)]
  simp only [List.getElem_map]
  rw [List.getD_eq_getElem x 0 hj]
  congr 1
  · rw [maskSel_zip _ Tr Er hTE, zipWith_map_zip, maskSel_zip _ X (Tr.zip Er) hXze,
        maskSel_filter Fr _ hzF, List.map_map]
    rfl
  · rw [zipWith_map_zip, maskSel_zip _ X Er hXe, maskSel_filter Fr _ hzF2, List.map_map]
    rfl

/-- Row extraction for binOI without an error table. -/
theorem binOI_row_none (x X : List ℝ) (T : List (List ℝ)) (F : List (List Bool)) (i : Nat)
    (hiT : i < T.length) (hiF : i < F.length) :
    (binOI x X T F none).1.getD i [] = binOIvalRow x X (T.getD i []) (F.getD i []) none := by
  have hi : i < (T.zip F).length := by
    rw [List.length_zip]
    omega
  simp only [binOI]
  rw [List.getD_eq_getElem _ [] (by simpa using hi)]
  simp only [List.getElem_map]
  rw [List.getElem_zip, List.getD_eq_getElem T [] hiT, List.getD_eq_getElem F [] hiF]

/-- Row extraction for binOI with an error table. -/
theorem binOI_row_some (x X : List ℝ) (T Em : List (List ℝ)) (F : List (List Bool)) (i : Nat)
    (hiT : i < T.length) (hiF : i < F.length) (hiE : i < Em.length) :
    (binOI x X T F (some Em)).1.getD i []
      = binOIvalRow x X (T.getD i []) (F.getD i []) (some (Em.getD i [])) := by
  have hi : i < ((T.zip F).zip Em).length := by
    rw [List.length_zip, List.length_zip]
    omega
  simp only [binOI]
  rw [List.getD_eq_getElem _ [] (by simpa using hi)]
  simp only [List.getElem_map]
  rw [List.getElem_zip, List.getElem_zip, List.getD_eq_getElem T [] hiT,
      List.getD_eq_getElem F [] hiF, List.getD_eq_getElem Em [] hiE]

/-- Claim C6: for every rebin call, row i and output channel j, the binned
value is the kernel-weighted average `sum(k*Y/E)/sum(k/E)` over the
unflagged old-grid samples, with kernel `exp(-(Xj-x0)^2/(0.6*dx)^2)` where
`dx` is the median spacing of the new grid, and with unit weights when no
error table is supplied. -/
theorem C6_rebin_formula (x X : List ℝ) (T Em : List (List ℝ)) (F : List (List Bool))
    (i j : Nat)
    (hiT : i < T.length) (hiF : i < F.length) (hiE : i < Em.length)
    (hT : (T.getD i []).length = X.length)
    (hF : (F.getD i []).length = X.length)
    (hE : (Em.getD i []).length = X.length)
    (hj : j < x.length) :
    ((binOI x X T F none).1.getD i []).getD j 0 =
      ((((X.zip ((T.getD i []).zip (List.replicate X.length (1 : ℝ)))).zip
          (F.getD i [])).filter (fun p => !p.2)).map
        (fun p => gaussK (npMedian (diffs x)) (x.getD j 0) p.1.1 * p.1.2.1 / p.1.2.2)).sum /
      ((((X.zip (List.replicate X.length (1 : ℝ))).zip (F.getD i [])).filter
          (fun p => !p.2)).map
        (fun p => gaussK (npMedian (diffs x)) (x.getD j 0) p.1.1 / p.1.2)).sum ∧
    ((binOI x X T F (some Em)).1.getD i []).getD j 0 =
      ((((X.zip ((T.getD i []).zip (Em.getD i []))).zip (F.getD i [])).filter
          (fun p => !p.2)).map
        (fun p => gaussK (npMedian (diffs x)) (x.getD j 0) p.1.1 * p.1.2.1 / p.1.2.2)).sum /
      ((((X.zip (Em.getD i [])).zip (F.getD i [])).filter (fun p => !p.2)).map
        (fun p => gaussK (npMedian (diffs x)) (x.getD j 0) p.1.1 / p.1.2)).sum := by
  constructor
  · rw [binOI_row_none x X T F i hiT hiF]
    rw [binOIvalRow]
    have hVec : binVec x (maskSel ((F.getD i []).map (fun b => !b)) X)
        (maskSel ((F.getD i []).map (fun b => !b)) (T.getD i []))
        ((none : Option (List ℝ)).map (maskSel ((F.getD i []).map (fun b => !b))))
        = binVecW x (maskSel ((F.getD i []).map (fun b => !b)) X)
          (maskSel ((F.getD i []).map (fun b => !b)) (T.getD i []))
          (maskSel ((F.getD i []).map (fun b => !b)) (List.replicate X.length (1 : ℝ))) := by
      rw [show ((none : Option (List ℝ)).map (maskSel ((F.getD i []).map (fun b => !b))))
          = none from rfl]
      rw [binVec, Option.getD_none, maskSel_replicate_one _ X (T.getD i []) hT]
    rw [hVec]
    exact binVecW_masked x X (T.getD i []) (List.replicate X.length 1) (F.getD i [])
      hT hF (List.length_replicate _ _) j hj
  · rw [binOI_row_some x X T Em F i hiT hiF hiE]
    rw [binOIvalRow]
    rw [show binVec x (maskSel ((F.getD i []).map (fun b => !b)) X)
        (maskSel ((F.getD i []).map (fun b => !b)) (T.getD i []))
        ((some (Em.getD i [])).map (maskSel ((F.getD i []).map (fun b => !b))))
        = binVecW x (maskSel ((F.getD i []).map (fun b => !b)) X)
          (maskSel ((F.getD i []).map (fun b => !b)) (T.getD i []))
          (maskSel ((F.getD i []).map (fun b => !b)) (Em.getD i [])) from rfl]
    exact binVecW_masked x X (T.getD i []) (Em.getD i []) (F.getD i []) hT hF hE j hj

/-- Witness for `C6_rebin_formula` at a concrete two-channel, one-row
table with one flagged sample. -/
theorem C6_rebin_formula_witness :
    ((binOI [0, 1] [0, 1] [[2, 3]] [[false, true]] none).1.getD 0 []).getD 0 0 =
      (((([(0 : ℝ), 1].zip (([[2, 3]].getD 0 []).zip
          (List.replicate [(0 : ℝ), 1].length (1 : ℝ)))).zip
          ([[false, true]].getD 0 [])).filter (fun p => !p.2)).map
        (fun p => gaussK (npMedian (diffs [0, 1])) ([(0 : ℝ), 1].getD 0 0) p.1.1 * p.1.2.1 / p.1.2.2)).sum /
      (((([(0 : ℝ), 1].zip (List.replicate [(0 : ℝ), 1].length (1 : ℝ))).zip
          ([[false, true]].getD 0 [])).filter (fun p => !p.2)).map
        (fun p => gaussK (npMedian (diffs [0, 1])) ([(0 : ℝ), 1].getD 0 0) p.1.1 / p.1.2)).sum ∧
    ((binOI [0, 1] [0, 1] [[2, 3]] [[false, true]] (some [[5, 7]])).1.getD 0 []).getD 0 0 =
      (((([(0 : ℝ), 1].zip (([[2, 3]].getD 0 []).zip ([[(5 : ℝ), 7]].getD 0 []))).zip
          ([[false, true]].getD 0 [])).filter (fun p => !p.2)).map
        (fun p => gaussK (npMedian (diffs [0, 1])) ([(0 : ℝ), 1].getD 0 0) p.1.1 * p.1.2.1 / p.1.2.2)).sum /
      (((([(0 : ℝ), 1].zip ([[(5 : ℝ), 7]].getD 0 [])).zip
          ([[false, true]].getD 0 [])).filter (fun p => !p.2)).map
        (fun p => gaussK (npMedian (diffs [0, 1])) ([(0 : ℝ), 1].getD 0 0) p.1.1 / p.1.2)).sum :=
  C6_rebin_formula [0, 1] [0, 1] [[2, 3]] [[5, 7]] [[false, true]] 0 0
    (by norm_num) (by norm_num) (by norm_num) (by norm_num) (by norm_num) (by norm_num)
    (by norm_num)

theorem zipWith_gauss_num (X : List ℝ) (dx x0 c : ℝ) :
    (List.zipWith (fun Xj YE => gaussK dx x0 Xj * YE.1 / YE.2) X
      ((X.map (fun _ => c)).zip (List.replicate (X.map (fun _ => c)).length (1 : ℝ)))).sum
    = (X.map (fun Xj => gaussK dx x0 Xj)).sum * c := by
  rw [List.length_map]
  induction X with
  | nil => simp
  | cons a Xs ih =>
    simp only [List.map_cons, List.length_cons, List.replicate_succ, List.zip_cons_cons,
      List.zipWith_cons_cons, List.sum_cons]
    rw [ih]
    ring

theorem zipWith_gauss_den (X : List ℝ) (dx x0 : ℝ) :
    (List.zipWith (fun Xj Ej => gaussK dx x0 Xj / Ej) X (List.replicate X.length (1 : ℝ))).sum
    = (X.map (fun Xj => gaussK dx x0 Xj)).sum := by
  induction X with
  | nil => simp
  | cons a Xs ih =>
    simp only [List.length_cons, List.replicate_succ, List.zipWith_cons_cons, List.sum_cons,
      List.map_cons]
    rw [ih, div_one]

theorem gauss_sum_pos (X : List ℝ) (hne : X ≠ []) (dx x0 : ℝ) :
    0 < (X.map (fun Xj => gaussK dx x0 Xj)).sum := by
  apply List.sum_pos
  · intro a ha
    obtain ⟨Xj, -, rfl⟩ := List.mem_map.mp ha
    exact Real.exp_pos _
  · simpa using hne

/-- A row that is constant and entirely unflagged is returned unchanged by
`_binVec` on any new grid (the kernel weights cancel). -/
theorem binVec_const (X : List ℝ) (c : ℝ) (hne : X ≠ []) :
    binVec X X (X.map (fun _ => c)) none = X.map (fun _ => c) := by
  rw [binVec]
  rw [show ((none : Option (List ℝ)).getD (List.replicate (X.map (fun _ => c)).length (1 : ℝ)))
      = List.replicate (X.map (fun _ => c)).length (1 : ℝ) from rfl]
  rw [binVecW]
  apply List.map_congr_left
  intro x0 _
  rw [zipWith_gauss_num X (npMedian (diffs X)) x0 c, List.length_map, zipWith_gauss_den]
  have hS : 0 < (X.map (fun Xj => gaussK (npMedian (diffs X)) x0 Xj)).sum :=
    gauss_sum_pos X hne _ _
  rw [mul_comm, mul_div_assoc, div_self (ne_of_gt hS), mul_one]

theorem binOIflag_const (X : List ℝ) (hne : X ≠ []) :
    binOIflagRow X X (X.map (fun _ => false)) = X.map (fun _ => false) := by
  rw [binOIflagRow]
  have h0 : (X.map (fun _ => false)).map boolR = X.map (fun _ => (0 : ℝ)) := by
    simp [boolR]
  rw [h0, binVec_const X 0 hne, List.map_map]
  apply List.map_congr_left
  intro a _
  show decide ((0 : ℝ) > 0.5) = false
  exact decide_eq_false (by norm_num)

/-- Claim C7 amended: identity-grid rebinning leaves a constant, entirely
unflagged row unchanged, values exactly and flags still all false. -/
theorem C7_identity_rebin_const (X : List ℝ) (c : ℝ) (hne : X ≠ []) :
    (binOI X X [X.map (fun _ => c)] [X.map (fun _ => false)] none).1
      = [X.map (fun _ => c)] ∧
    (binOI X X [X.map (fun _ => c)] [X.map (fun _ => false)] none).2
      = [X.map (fun _ => false)] := by
  constructor
  · have hrow : binOIvalRow X X (X.map (fun _ => c)) (X.map (fun _ => false)) none
        = X.map (fun _ => c) := by
      rw [binOIvalRow]
      have hw : (X.map (fun _ => false)).map (fun b => !b) = X.map (fun _ => true) := by
        simp
      rw [hw, maskSel_mapTrue X X rfl,
          maskSel_mapTrue X (X.map (fun _ => c)) (List.length_map X _)]
      rw [show ((none : Option (List ℝ)).map (maskSel (X.map (fun _ => true)))) = none from rfl]
      exact binVec_const X c hne
    show (([X.map (fun _ => c)].zip [X.map (fun _ => false)]).map
        (fun p => binOIvalRow X X p.1 p.2 none)) = [X.map (fun _ => c)]
    rw [show (([X.map (fun _ => c)].zip [X.map (fun _ => false)]).map
        (fun p => binOIvalRow X X p.1 p.2 none))
        = [binOIvalRow X X (X.map (fun _ => c)) (X.map (fun _ => false)) none] from rfl]
    rw [hrow]
  · show ([X.map (fun _ => false)].map (fun Frow => binOIflagRow X X Frow))
        = [X.map (fun _ => false)]
    rw [show ([X.map (fun _ => false)].map (fun Frow => binOIflagRow X X Frow))
        = [binOIflagRow X X (X.map (fun _ => false))] from rfl]
    rw [binOIflag_const X hne]

/-- Witness for `C7_identity_rebin_const` on the grid [0, 1] with the
constant row 5. -/
theorem C7_identity_rebin_const_witness :
    (binOI [0, 1] [0, 1] [[(0 : ℝ), 1].map (fun _ => (5 : ℝ))]
        [[(0 : ℝ), 1].map (fun _ => false)] none).1
      = [[(0 : ℝ), 1].map (fun _ => (5 : ℝ))] ∧
    (binOI [0, 1] [0, 1] [[(0 : ℝ), 1].map (fun _ => (5 : ℝ))]
        [[(0 : ℝ), 1].map (fun _ => false)] none).2
      = [[(0 : ℝ), 1].map (fun _ => false)] :=
  C7_identity_rebin_const [0, 1] 5 (by simp)

/-- Claim C7, counterexample: rebinning the unflagged row [0, 1, 0] onto
the grid [0, 1, 2] identical to the input grid returns at the middle
channel a value of at most 27/29, while the input value there is 1: the
neighbouring channels receive kernel weight exp(-25/9) each, so identity
rebinning smooths by far more than any floating tolerance. -/
theorem C7_identity_rebin_cex :
    ((binOI [0, 1, 2] [0, 1, 2] [[0, 1, 0]] [[false, false, false]] none).1.getD 0 []).getD 1 0
      ≤ 27 / 29 ∧
    (([[(0 : ℝ), 1, 0]].getD 0 []).getD 1 0) = 1 := by
  have hdiffs : diffs [(0 : ℝ), 1, 2] = [1, 1] := by
    norm_num [diffs]
  have hsort : sortR [(1 : ℝ), 1] = [1, 1] := by
    simp [sortR, insertR]
  have hmed : npMedian (diffs [(0 : ℝ), 1, 2]) = 1 := by
    rw [hdiffs, npMedian]
    norm_num [hsort]
  have hg1 : gaussK 1 1 1 = 1 := by
    rw [gaussK, show (-(((1 : ℝ) - 1) ^ 2) / (0.6 * 1) ^ 2) = 0 by norm_num, Real.exp_zero]
  have hg0 : gaussK 1 1 0 = Real.exp (-(25 / 9)) := by
    rw [gaussK, show (-(((0 : ℝ) - 1) ^ 2) / (0.6 * 1) ^ 2) = -(25 / 9) by norm_num]
  have hg2 : gaussK 1 1 2 = Real.exp (-(25 / 9)) := by
    rw [gaussK, show (-(((2 : ℝ) - 1) ^ 2) / (0.6 * 1) ^ 2) = -(25 / 9) by norm_num]
  have he : (0 : ℝ) < Real.exp (-(25 / 9)) := Real.exp_pos _
  have hexp3 : Real.exp 3 < 27 := by
    have h1 : Real.exp 1 < 2.7182818286 := Real.exp_one_lt_d9
    have h3 : Real.exp 3 = Real.exp 1 * Real.exp 1 * Real.exp 1 := by
      rw [← Real.exp_add, ← Real.exp_add]
      norm_num
    rw [h3]
    nlinarith [Real.exp_pos 1]
  have hlb : (1 : ℝ) / 27 < Real.exp (-(25 / 9)) := by
    have h25 : Real.exp (-(3 : ℝ)) ≤ Real.exp (-(25 / 9)) := Real.exp_le_exp.mpr (by norm_num)
    have hinv : (1 : ℝ) / 27 < Real.exp (-(3 : ℝ)) := by
      rw [Real.exp_neg, inv_eq_one_div, div_lt_div_iff₀ (by norm_num) (Real.exp_pos 3)]
      linarith
    linarith
  constructor
  · rw [binOI_row_none [0, 1, 2] [0, 1, 2] [[0, 1, 0]] [[false, false, false]] 0
      (by norm_num) (by norm_num)]
    rw [show ([[(0 : ℝ), 1, 0]].getD 0 []) = [(0 : ℝ), 1, 0] from rfl,
        show ([[false, false, false]].getD 0 []) = [false, false, false] from rfl]
    rw [binOIvalRow]
    rw [show (([false, false, false].map (fun b => !b))) = [true, true, true] from rfl]
    rw [show (maskSel [true, true, true] [(0 : ℝ), 1, 2]) = [(0 : ℝ), 1, 2] from rfl]
    rw [show (maskSel [true, true, true] [(0 : ℝ), 1, 0]) = [(0 : ℝ), 1, 0] from rfl]
    rw [show ((none : Option (List ℝ)).map (maskSel [true, true, true])) = none from rfl]
    rw [binVec]
    rw [show ((none : Option (List ℝ)).getD (List.replicate [(0 : ℝ), 1, 0].length (1 : ℝ)))
        = [(1 : ℝ), 1, 1] from rfl]
    rw [binVecW]
    simp only [hmed, List.map_cons, List.map_nil, List.zip_cons_cons, List.zip_nil_right,
      List.zipWith_cons_cons, List.zipWith_nil_right, List.sum_cons, List.sum_nil,
      List.getD_cons_succ, List.getD_cons_zero]
    rw [hg0, hg1, hg2]
    rw [div_le_div_iff₀ (by positivity) (by norm_num)]
    nlinarith [hlb, he]
  · rfl

/-! ## Heterogeneous tables, missing-baseline fabrication and collapse

The per-baseline dicts hold 1D float vectors, 2D float matrices, flag
matrices and (after collapse) a string vector; they are embedded as
association lists of a sum type so that tables with different key sets can
be processed by the same code, exactly as the python dicts are. -/

/-- One value of a baseline-table dict. -/
inductive NField where
  | vec : List ℝ → NField
  | mat : List (List ℝ) → NField
  | bmat : List (List Bool) → NField
  | svec : List String → NField

/-- A baseline-table dict. -/
abbrev NTable := List (String × NField)

/-- The row count of a field: length of a vector, number of rows of a
matrix. -/
def nfRows : NField → Nat
  | .vec l => l.length
  | .mat m => m.length
  | .bmat m => m.length
  | .svec l => l.length

/-- Claim C1's invariant for one table: every 1D vector and every matrix of
the table has one common row count. -/
def tableShapeOK (t : NTable) : Prop :=
  ∃ r, ∀ p ∈ t, nfRows p.2 = r

/-- loadOI lines 553-583: fabricate the OI_VIS2 table of a baseline missing
from the raw file but referenced by a triangle at leg `idx`.  Value matrix
zero, error matrix one, flags all true, epochs copied from the referencing
triangle; `u`, `v` taken from the triangle leg coordinates with no sign
applied, and for the third leg the source computes `v = -v2 - v2`
(line 564).  The dict carries no `PA` key, unlike every other OI_VIS2
table the loader builds. -/
noncomputable def fakeBaseline (WL MJD u1 v1 u2 v2 : List ℝ) (idx : Nat) : NTable :=
  let u := if idx = 0 then u1 else if idx = 1 then u2
    else List.zipWith (fun a b => -a - b) u1 u2
  let v := if idx = 0 then v1 else if idx = 1 then v2
    else List.zipWith (fun a b => -a - b) v2 v2
  let uwl := u.map (fun uu => WL.map (fun wl => uu / wl))
  let vwl := v.map (fun vv => WL.map (fun wl => vv / wl))
  [("V2", NField.mat (MJD.map (fun _ => WL.map (fun _ => 0)))),
   ("EV2", NField.mat (MJD.map (fun _ => WL.map (fun _ => 1)))),
   ("u", NField.vec u),
   ("v", NField.vec v),
   ("u/wl", NField.mat uwl),
   ("v/wl", NField.mat vwl),
   ("B/wl", NField.mat (List.zipWith
     (fun ur vr => List.zipWith (fun a b => Real.sqrt (a ^ 2 + b ^ 2)) ur vr) uwl vwl)),
   ("FLAG", NField.bmat (MJD.map (fun _ => WL.map (fun _ => true)))),
   ("MJD", NField.vec MJD)]

/-- Claim C4: the (u,v) coordinates of a fabricated missing baseline.  For
a triangle whose third leg is missing, with v1 = 1 and v2 = 2, the leg's v
coordinate is -(v1+v2) = -3, but the source's `v = -v2 - v2` (line 564)
fabricates -4. -/
theorem C4_fabricated_v_bug :
    lookupF (fakeBaseline [1] [0] [0] [1] [0] [2] 2) "v" = some (NField.vec [-4]) ∧
    ¬ lookupF (fakeBaseline [1] [0] [0] [1] [0] [2] 2) "v"
        = some (NField.vec [-((1 : ℝ) + 2)]) := by
  have h1 : lookupF (fakeBaseline [1] [0] [0] [1] [0] [2] 2) "v"
      = some (NField.vec [-(2 : ℝ) - 2]) := rfl
  have h2 : (-(2 : ℝ) - 2) = -4 := by norm_num
  constructor
  · rw [h1, h2]
  · rw [h1, h2]
    intro h
    simp only [Option.some.injEq, NField.vec.injEq, List.cons.injEq] at h
    have := h.1
    norm_num at this

/-- Numpy append along axis 0 / python list extend for matching field
kinds (a kind mismatch would be a numpy error; the first operand is kept
to stay total). -/
def nfAppend : NField → NField → NField
  | .vec a, .vec b => .vec (a ++ b)
  | .mat a, .mat b => .mat (a ++ b)
  | .bmat a, .bmat b => .bmat (a ++ b)
  | .svec a, .svec b => .svec (a ++ b)
  | a, _ => a

/-- `len(oi[e][k]['MJD'])`. -/
def tblRows (t : NTable) : Nat :=
  match lookupF t "MJD" with
  | some (NField.vec l) => l.length
  | _ => 0

/-- _allInOneOI lines 1257-1274 for one incoming table: extend the NAME
vector by the table's name repeated per row, then for every data key of the
incoming table either initialise it in the accumulator or append to it. -/
def collapseInto (tmp : NTable) (name : String) (tbl : NTable) : NTable :=
  let tmp2 := updF tmp "NAME"
    (match lookupF tmp "NAME" with
     | some (NField.svec s) => NField.svec (s ++ List.replicate (tblRows tbl) name)
     | _ => NField.svec (List.replicate (tblRows tbl) name))
  tbl.foldl (fun acc p =>
    if acc.any (fun q => decide (q.1 = p.1)) then
      updF acc p.1 (match lookupF acc p.1 with
        | some f => nfAppend f p.2
        | none => p.2)
    else acc ++ [p]) tmp2

/-- _allInOneOI lines 1255-1276 for one OI extension: concatenate every
table whose key is not "all" into the `tmp` dict started as `{'NAME': []}`. -/
def collapseExt (d : List (String × NTable)) : NTable :=
  (d.filter (fun p => !(decide (p.1 = "all")))).foldl
    (fun acc p => collapseInto acc p.1 p.2) [("NAME", NField.svec [])]

/-- _allInOneOI: after the concatenation, `oi[e]['all'] = tmp` and every
other key is popped (lines 1276 and 1295-1298), so the extension reduces
to the single key "all". -/
def allInOneExt (d : List (String × NTable)) : List (String × NTable) :=
  [("all", collapseExt d)]

theorem lookupF_mem (l : List (String × α)) (k : String) (f : α)
    (h : lookupF l k = some f) : (k, f) ∈ l := by
  unfold lookupF at h
  obtain ⟨p, hp, hpe⟩ := Option.map_eq_some'.mp h
  have hm := List.mem_of_find?_eq_some hp
  have hk := List.find?_some hp
  simp only [decide_eq_true_eq] at hk
  have hpkf : p = (k, f) := by
    cases p
    simp only at hk hpe
    rw [hk, hpe]
  rw [← hpkf]
  exact hm

/-- A real OI_VIS2 table as loadOI builds it: one row, one wavelength
channel, all ten keys including `PA`. -/
noncomputable def realVis2Tbl : NTable :=
  [("V2", NField.mat [[2]]),
   ("EV2", NField.mat [[1]]),
   ("u", NField.vec [10]),
   ("v", NField.vec [20]),
   ("MJD", NField.vec [0]),
   ("u/wl", NField.mat [[10]]),
   ("v/wl", NField.mat [[20]]),
   ("FLAG", NField.bmat [[false]]),
   ("B/wl", NField.mat [[22]]),
   ("PA", NField.mat [[26]])]

/-- Claim C1: the common-row-count shape invariant.  Both input tables are
shape-consistent, but the fabricated missing-baseline table carries no PA
key, so after the collapse concatenation the PA matrix has 1 row while V2
has 2: the collapsed table violates the invariant. -/
theorem C1_collapse_shape_bug :
    tableShapeOK realVis2Tbl ∧
    tableShapeOK (fakeBaseline [1] [0] [0] [1] [0] [2] 2) ∧
    (lookupF (collapseExt [("AB", realVis2Tbl), ("CA", fakeBaseline [1] [0] [0] [1] [0] [2] 2)])
        "V2").map nfRows = some 2 ∧
    (lookupF (collapseExt [("AB", realVis2Tbl), ("CA", fakeBaseline [1] [0] [0] [1] [0] [2] 2)])
        "PA").map nfRows = some 1 ∧
    ¬ tableShapeOK (collapseExt
        [("AB", realVis2Tbl), ("CA", fakeBaseline [1] [0] [0] [1] [0] [2] 2)]) := by
  refine ⟨⟨1, ?_⟩, ⟨1, ?_⟩, rfl, rfl, ?_⟩
  · intro p hp
    simp only [realVis2Tbl, List.mem_cons, List.not_mem_nil, or_false] at hp
    rcases hp with rfl | rfl | rfl | rfl | rfl | rfl | rfl | rfl | rfl | rfl <;> rfl
  · intro p hp
    simp only [fakeBaseline, List.mem_cons, List.not_mem_nil, or_false] at hp
    rcases hp with rfl | rfl | rfl | rfl | rfl | rfl | rfl | rfl | rfl <;> rfl
  · rintro ⟨r, hr⟩
    have hV2 : (lookupF (collapseExt
        [("AB", realVis2Tbl), ("CA", fakeBaseline [1] [0] [0] [1] [0] [2] 2)])
        "V2").map nfRows = some 2 := rfl
    have hPA : (lookupF (collapseExt
        [("AB", realVis2Tbl), ("CA", fakeBaseline [1] [0] [0] [1] [0] [2] 2)])
        "PA").map nfRows = some 1 := rfl
    obtain ⟨fv, hfv, hfvr⟩ := Option.map_eq_some'.mp hV2
    obtain ⟨fp, hfp, hfpr⟩ := Option.map_eq_some'.mp hPA
    have e1 := hr _ (lookupF_mem _ _ _ hfv)
    have e2 := hr _ (lookupF_mem _ _ _ hfp)
    simp only at e1 e2
    rw [hfvr] at e1
    rw [hfpr] at e2
    omega

/-- Claim C9: re-collapsing an already collapsed extension is not a no-op.
The concatenation loop skips every key equal to "all", so `tmp` stays
`{'NAME': []}`, and the assignment `oi[e]['all'] = tmp` then replaces the
one-row collapsed table by an empty NAME-only dict: the data is wiped. -/
theorem C9_recollapse_wipes :
    allInOneExt [("all", realVis2Tbl)] = [("all", [("NAME", NField.svec [])])] ∧
    (lookupF realVis2Tbl "MJD").map nfRows = some 1 :=
  ⟨rfl, rfl⟩

end Oifits
